import Mathlib

/-!
Shallow embedding of `bot_supleshop2.py` (a Telegram product-feed bot) and
verification of its specification claims.

Python values occurring in feed records are modelled by `PyVal`; Python's
`str`/`or`/truthiness and string methods are modelled over explicit character
lists so that every definition is executable by the kernel.
-/

/-- Finite float value, kept as an unreduced integer fraction `num / den`.
Floats read from the CSV feed are decimal, so `den` is always a power of 10
as constructed in this file. -/
structure PRat where
  num : Int
  den : Nat
deriving DecidableEq

/-- A Python value as it can occur in a feed record: a string, an `int`,
a finite `float`, the float `nan` (pandas' marker for a missing cell), or
`None` (also used for a missing key lookup, as `dict.get` returns `None`). -/
inductive PyVal where
  | vStr (s : String)
  | vInt (n : Int)
  | vFloat (q : PRat)
  | vNaN
  | vNone
deriving DecidableEq

/-- One spreadsheet row: a mapping from field name to value
(`df.to_dict("records")` yields one dict per row). -/
def Record := List (String × PyVal)
deriving DecidableEq

/-- `product.get(key)`: the value under `key`, `None` when the key is absent. -/
def rGet (p : Record) (k : String) : PyVal :=
  match p with
  | [] => .vNone
  | (k', v) :: t => if k' = k then v else rGet t k

/-- Python truthiness of a value (`bool(v)`); note `nan` is truthy. -/
def truthy : PyVal → Bool
  | .vStr s => !s.data.isEmpty
  | .vInt n => n != 0
  | .vFloat q => q.num != 0
  | .vNaN => true
  | .vNone => false

/-- Python `a or b`: `a` when truthy, otherwise `b`. -/
def pyOr (a b : PyVal) : PyVal := if truthy a then a else b

/-- `pd.isna(v)`: true for `nan` and for `None`. -/
def pdIsna : PyVal → Bool
  | .vNaN => true
  | .vNone => true
  | _ => false

/-- Strip leading and trailing whitespace from a character list. -/
def trimChars (l : List Char) : List Char :=
  ((l.dropWhile Char.isWhitespace).reverse.dropWhile Char.isWhitespace).reverse

/-- Python `str.strip()`. -/
def pyStrip (s : String) : String := ⟨trimChars s.data⟩

/-- Python `str.lower()` (ASCII letters, which is all the bot's data uses). -/
def pyLower (s : String) : String := ⟨s.data.map Char.toLower⟩

/-- Python `str.replace('%', '')`: remove every percent sign. -/
def removePercent (s : String) : String := ⟨s.data.filter (fun c => c ≠ '%')⟩

/-- Is `pre` a prefix of `l`? (for Python `str.startswith`). -/
def prefOf : List Char → List Char → Bool
  | [], _ => true
  | _ :: _, [] => false
  | a :: as, b :: bs => a = b && prefOf as bs

/-- Does `needle` occur as a contiguous run inside `hay`?
(Python `needle in hay` on strings.) -/
def subOf (needle hay : List Char) : Bool :=
  match hay with
  | [] => prefOf needle []
  | _ :: t => prefOf needle hay || subOf needle t

/-- Python `needle in hay` for strings. -/
def strContainsSub (hay needle : String) : Bool := subOf needle.data hay.data

/-- Python `hay.startswith(pre)`. -/
def strStartsWith (hay pre : String) : Bool := prefOf pre.data hay.data

/-- Left-pad the decimal digits of `n` with zeros to width `k`. -/
def padDigits (n k : Nat) : List Char :=
  let ds := Nat.toDigits 10 n
  List.replicate (k - ds.length) '0' ++ ds

/-- Display string of a finite float, as CPython's `str` renders decimal
values: integral values get a trailing `.0`, and otherwise the exact decimal
expansion (feed floats are decimal, so their denominator divides a power of
ten; the final clause is an arbitrary total fallback). -/
def floatRepr (q : PRat) : String :=
  if q.den = 0 then "nan"
  else if q.num % (q.den : Int) = 0 then toString (q.num.tdiv (q.den : Int)) ++ ".0"
  else
    match (List.range 40).find? (fun k => (10 ^ k) % q.den = 0) with
    | some k =>
      let scaled : Int := q.num * (((10 ^ k) / q.den : Nat) : Int)
      let sgn := if scaled < 0 then "-" else ""
      let a := scaled.natAbs
      sgn ++ toString (a / 10 ^ k) ++ "." ++ String.mk (padDigits (a % 10 ^ k) k)
    | none => toString q.num ++ "/" ++ toString q.den

/-- Python `str(v)`. -/
def pyStr : PyVal → String
  | .vStr s => s
  | .vInt n => toString n
  | .vFloat q => floatRepr q
  | .vNaN => "nan"
  | .vNone => "None"

/-- Python `int(x)` on a finite float: truncation toward zero. -/
def pyTrunc (q : PRat) : Int := q.num.tdiv (q.den : Int)

/-- The value of a Python float expression: a finite value, an infinity,
or `nan` (`float('inf')` appears in `DISCOUNT_RANGES`, and `float` parsing
accepts `inf` and `nan` spellings). -/
inductive FloatVal where
  | val (q : PRat)
  | inf
  | ninf
  | nan
deriving DecidableEq

/-- Float `<=`: false whenever `nan` is involved. -/
def fle : FloatVal → FloatVal → Bool
  | .nan, _ => false
  | _, .nan => false
  | .ninf, _ => true
  | _, .inf => true
  | .inf, _ => false
  | _, .ninf => false
  | .val a, .val b => decide (a.num * (b.den : Int) ≤ b.num * (a.den : Int))

/-- Float `<`: false whenever `nan` is involved. -/
def flt : FloatVal → FloatVal → Bool
  | .nan, _ => false
  | _, .nan => false
  | .inf, _ => false
  | _, .inf => true
  | .ninf, .ninf => false
  | .ninf, _ => true
  | _, .ninf => false
  | .val a, .val b => decide (a.num * (b.den : Int) < b.num * (a.den : Int))

/-- Numeric value of a digit list (most significant first). -/
def digitsVal (l : List Char) : Nat :=
  l.foldl (fun a c => a * 10 + (c.toNat - '0'.toNat)) 0

/-- Parse the mantissa part of a float literal: digits with an optional
decimal point, requiring at least one digit overall. Returns the value and
the unconsumed characters. -/
def parseMant (l : List Char) : Option (PRat × List Char) :=
  let ip := l.takeWhile Char.isDigit
  let rest := l.drop ip.length
  match rest with
  | '.' :: r2 =>
    let fp := r2.takeWhile Char.isDigit
    if ip.isEmpty && fp.isEmpty then none
    else some (⟨(digitsVal ip : Int) * (10 ^ fp.length : Nat) + (digitsVal fp : Int),
                10 ^ fp.length⟩, r2.drop fp.length)
  | _ => if ip.isEmpty then none else some (⟨(digitsVal ip : Int), 1⟩, rest)

/-- Parse an optional exponent suffix `e[+-]digits`; `(0, l)` when absent,
`none` when an `e` is present but malformed. -/
def parseExpPart (l : List Char) : Option (Int × List Char) :=
  match l with
  | 'e' :: r | 'E' :: r =>
    let (neg, r1) : Bool × List Char :=
      match r with
      | '+' :: t => (false, t)
      | '-' :: t => (true, t)
      | t => (false, t)
    let ds := r1.takeWhile Char.isDigit
    if ds.isEmpty then none
    else some (if neg then -(digitsVal ds : Int) else (digitsVal ds : Int), r1.drop ds.length)
  | _ => some (0, l)

/-- Scale a finite value by `10 ^ e`. -/
def applyExp (q : PRat) (e : Int) : PRat :=
  if 0 ≤ e then ⟨q.num * (10 ^ e.toNat : Nat), q.den⟩ else ⟨q.num, q.den * 10 ^ (-e).toNat⟩

/-- Python `float(s)`: strip whitespace, optional sign, then `inf`,
`infinity`, `nan` (case-insensitive) or a decimal literal with optional
exponent. `none` models the `ValueError` of an unparseable string. -/
def parsePyFloat (s : String) : Option FloatVal :=
  let l := trimChars s.data
  let (neg, l1) : Bool × List Char :=
    match l with
    | '+' :: t => (false, t)
    | '-' :: t => (true, t)
    | t => (false, t)
  let low := l1.map Char.toLower
  if low = "inf".data || low = "infinity".data then some (if neg then .ninf else .inf)
  else if low = "nan".data then some .nan
  else
    match parseMant l1 with
    | none => none
    | some (m, r) =>
      match parseExpPart r with
      | none => none
      | some (e, r2) =>
        if r2.isEmpty then some (.val (applyExp (if neg then ⟨-m.num, m.den⟩ else m) e)) else none

/-! ### Change detector / state store (`process_sheet_data`, lines 639-693) -/

/-- The persisted state (`processed_ids.json`): the seen-identifier set
`IDs` and the `last_prices` map, the latter as an insertion-ordered
association list mirroring a Python dict. -/
structure DetState where
  ids : List String
  lastPrices : List (String × String)
deriving DecidableEq

/-- `last_prices.get(pid)`. -/
def priceGet (m : List (String × String)) (k : String) : Option String :=
  match m with
  | [] => none
  | (k', v) :: t => if k' = k then some v else priceGet t k

/-- `last_prices[pid] = v`: update in place, else append. -/
def priceSet (m : List (String × String)) (k v : String) : List (String × String) :=
  match m with
  | [] => [(k, v)]
  | (k', v') :: t => if k' = k then (k, v) :: t else (k', v') :: priceSet t k v

/-- `ids.add(pid)` on the seen-set, represented as a duplicate-free list. -/
def setAdd (l : List String) (x : String) : List String :=
  if x ∈ l then l else l ++ [x]

/-- `str(product.get("ID") or product.get("id") or "").strip()`. -/
def recId (p : Record) : String :=
  pyStrip (pyStr (pyOr (pyOr (rGet p "ID") (rGet p "id")) (.vStr "")))

/-- `str(product.get("Precio_descuento") or product.get("precio_descuento") or "").strip()`. -/
def recPd (p : Record) : String :=
  pyStrip (pyStr (pyOr (pyOr (rGet p "Precio_descuento") (rGet p "precio_descuento")) (.vStr "")))

/-- One iteration of the classification loop of `process_sheet_data`
(broadcast branch, lines 666-679), acting on the state and the collected
`nuevos`/`descuentos` partitions. -/
def detectStep (acc : DetState × List Record × List Record) (p : Record) :
    DetState × List Record × List Record :=
  let st := acc.1
  let pid := recId p
  if pid = "" then acc
  else
    let pd := recPd p
    if pid ∉ st.ids then
      (⟨setAdd st.ids pid, priceSet st.lastPrices pid pd⟩, acc.2.1 ++ [p], acc.2.2)
    else if pd ≠ "" ∧ priceGet st.lastPrices pid ≠ some pd then
      (⟨st.ids, priceSet st.lastPrices pid pd⟩, acc.2.1, acc.2.2 ++ [p])
    else acc

/-- The full classification loop: final state plus the `nuevos` and
`descuentos` partitions in feed order. -/
def processRecords (st : DetState) (snap : List Record) :
    DetState × List Record × List Record :=
  snap.foldl detectStep (st, [], [])

/-- One iteration of the no-channel loop of `process_sheet_data`
(lines 647-658): the same state mutations, with no classification kept. -/
def noChannelStep (st : DetState) (p : Record) : DetState :=
  let pid := recId p
  if pid = "" then st
  else
    let pd := recPd p
    if pid ∉ st.ids then ⟨setAdd st.ids pid, priceSet st.lastPrices pid pd⟩
    else if pd ≠ "" ∧ priceGet st.lastPrices pid ≠ some pd then
      ⟨st.ids, priceSet st.lastPrices pid pd⟩
    else st

/-- The no-channel branch over a snapshot (state kept current, nothing sent). -/
def processNoChannel (st : DetState) (snap : List Record) : DetState :=
  snap.foldl noChannelStep st

/-! ### Field normalization (`update_categories_and_objectives`, lines 74-105) -/

/-- Normalization of one raw category/objective value, as performed in
`update_categories_and_objectives` (lines 76-89): `None`/`nan` become
absent; numeric values pass through `str(int(x))`; strings are stripped,
empty results becoming absent; the final `if cat:` keeps only truthy
strings. -/
def normalizeRaw (v : PyVal) : Option String :=
  if v ≠ .vNone ∧ pdIsna v = false then
    let v' : Option String :=
      match v with
      | .vFloat q => some (toString (pyTrunc q))
      | .vInt n => some (toString n)
      | .vStr s => if pyStrip s ≠ "" then some (pyStrip s) else none
      | _ => none
    match v' with
    | some s => if s ≠ "" then some s else none
    | none => none
  else none

/-- The same per-value normalization as written inline in
`handle_categoria_selection` (lines 464-474) and
`handle_objetivo_selection` (lines 574-584). -/
def normalizeSelection (v : PyVal) : Option String :=
  if v ≠ .vNone ∧ pdIsna v = false then
    match v with
    | .vFloat q => some (toString (pyTrunc q))
    | .vInt n => some (toString n)
    | .vStr s => if pyStrip s ≠ "" then some (pyStrip s) else none
    | _ => none
  else none

/-- The normalized category key of a record
(`product.get("Categoria") or product.get("categoria")`, then normalized). -/
def normCatKey (p : Record) : Option String :=
  normalizeRaw (pyOr (rGet p "Categoria") (rGet p "categoria"))

/-- The normalized objective key of a record. -/
def normObjKey (p : Record) : Option String :=
  normalizeRaw (pyOr (rGet p "Objetivo") (rGet p "objetivo"))

/-! ### Taxonomy cache (`update_categories_and_objectives`) -/

/-- Persisted taxonomy (`categories.json`). -/
structure Taxonomy where
  categorias : List String
  objetivos : List String
deriving DecidableEq

/-- `set.add` on a duplicate-free list representation of a Python set. -/
def insertNew (acc : List String) (x : String) : List String :=
  if x ∈ acc then acc else acc ++ [x]

/-- Collect the normalized values of one logical field across the snapshot
into the deduplicated prior set. -/
def collectField (getter : Record → Option String) (init : List String)
    (snap : List Record) : List String :=
  snap.foldl (fun acc p =>
    match getter p with
    | some c => insertNew acc c
    | none => acc) init.dedup

/-- `sorted(list(s))` for a set of strings. -/
def sortStrings (l : List String) : List String := l.mergeSort

/-- `update_categories_and_objectives(sheet_data)`: union the snapshot's
normalized categories/objectives into the persisted sets, sort, persist,
and return the merged result. -/
def update_categories_and_objectives (prior : Taxonomy) (snap : List Record) : Taxonomy :=
  ⟨sortStrings (collectField normCatKey prior.categorias snap),
   sortStrings (collectField normObjKey prior.objetivos snap)⟩

/-! ### Discount-bracket filter (`DISCOUNT_RANGES` and
`handle_discount_selection`, lines 289-297) -/

/-- The five fixed discount brackets, in dict insertion order. -/
def DISCOUNT_RANGES : List (String × FloatVal × FloatVal) :=
  [("0-10", .val ⟨0, 1⟩, .val ⟨10, 1⟩),
   ("10-20", .val ⟨10, 1⟩, .val ⟨20, 1⟩),
   ("20-30", .val ⟨20, 1⟩, .val ⟨30, 1⟩),
   ("30-50", .val ⟨30, 1⟩, .val ⟨50, 1⟩),
   ("50+", .val ⟨50, 1⟩, .inf)]

/-- The per-record predicate of `handle_discount_selection`: fetch the
discount under both key spellings, run
`float(str(descuento).replace('%', ''))`, and keep the record when
`min_discount <= descuento < max_discount` or, for the `"50+"` bracket,
`descuento >= 50`. An unparseable value (`ValueError`/`TypeError`) is
skipped. -/
def handle_discount_filter (selected : String) (lo hi : FloatVal) (p : Record) : Bool :=
  let d := pyOr (rGet p "Descuento") (rGet p "descuento")
  match parsePyFloat (removePercent (pyStr d)) with
  | none => false
  | some v => (fle lo v && flt v hi) || (selected = "50+" && fle (.val ⟨50, 1⟩) v)

/-- Modelled from the spec: the discount value read "after stripping a
trailing percent sign", the parse the specification describes (the claim's
own reading, stated for comparison with the code's `replace('%','')`). -/
def specTrailingPercentValue (s : String) : Option FloatVal :=
  parsePyFloat (if s.data.getLast? = some '%' then ⟨s.data.dropLast⟩ else s)

/-! ### Configuration and admin identification -/

/-- The process configuration (`config.json`), restricted to the keys the
modelled components read. `none` models a missing key. -/
structure Config where
  SHEET_CSV_URL : Option String
  sheet_url : Option String
  TELEGRAM_CHANNEL_ID : Option String
  ADMIN_CHAT_ID : Option String
  admin_users : Option (List String)
  LOGO_URL : Option String
deriving DecidableEq

/-- Truthiness of a `config.get(...)` result: present and non-empty. -/
def truthyOpt : Option String → Bool
  | some s => !s.data.isEmpty
  | none => false

/-- Python `config.get(a) or config.get(b)` on string-valued keys. -/
def pyOrOpt (a b : Option String) : Option String := if truthyOpt a then a else b

/-- `is_admin_id(user_id)` (lines 241-248): matches `ADMIN_CHAT_ID` when that
key is truthy, else membership in `admin_users` (default `[]`). All ids are
modelled as strings, collapsing the `str(...)` coercions. -/
def is_admin_id (cfg : Config) (user_id : String) : Bool :=
  (match cfg.ADMIN_CHAT_ID with
   | some a => !a.data.isEmpty && a = user_id
   | none => false)
  || (cfg.admin_users.getD []).contains user_id

/-! ### Delivery adapter (`send_message`, lines 197-229, and
`send_admin_error`, lines 232-238) -/

/-- Which of the two Telegram transport calls would succeed for this
delivery; models the external API's behaviour. -/
structure DeliveryEnv where
  photoOk : Bool
  textOk : Bool
deriving DecidableEq

/-- What one `send_message` call did: the caption delivered with a photo,
the body delivered as plain text, and whether the admin error notifier was
invoked. -/
structure DeliveryTrace where
  photoCaption : Option String
  textBody : Option String
  adminErrCalled : Bool
deriving DecidableEq

/-- `re.search(r"/d/([^/]+)/", url)`: the first capture of a
`/d/<segment>/` pattern, scanning left to right. -/
def findDriveId : List Char → Option (List Char)
  | [] => none
  | c :: t =>
    let here : Option (List Char) :=
      if prefOf "/d/".data (c :: t) then
        let rest := (c :: t).drop 3
        let g := rest.takeWhile (fun ch => ch ≠ '/')
        if !g.isEmpty && (rest.drop g.length).head? = some '/' then some g else none
      else none
    match here with
    | some g => some g
    | none => findDriveId t

/-- The drive-link rewriting step of `send_message` (lines 199-202): a
string containing `drive.google.com/file/d/` is rewritten to the direct
`uc?export=view` form when the id pattern matches. -/
def rewriteDrive (v : PyVal) : PyVal :=
  match v with
  | .vStr s =>
    if !s.data.isEmpty && strContainsSub s "drive.google.com/file/d/" then
      match findDriveId s.data with
      | some g => .vStr ("https://drive.google.com/uc?export=view&id=" ++ String.mk g)
      | none => .vStr s
    else .vStr s
  | w => w

/-- The image-usability test of `send_message` (line 204): a truthy string
that is non-blank and starts with `http://` or `https://`. -/
def usableImage : PyVal → Bool
  | .vStr s =>
    !s.data.isEmpty && !(pyStrip s).data.isEmpty &&
      (strStartsWith s "http://" || strStartsWith s "https://")
  | _ => false

/-- The body of `send_message` inside the outer `try` (lines 199-224):
photo-with-caption first when the image is usable, falling back to plain
text on photo failure; `error` is an exception escaping to the outer
handler. Returns the (photo caption, text body) actually delivered. -/
def sendBody (env : DeliveryEnv) (text : String) (image_url : PyVal) :
    Except Unit (Option String × Option String) :=
  let img := rewriteDrive image_url
  if usableImage img then
    if env.photoOk then .ok (some text, none)
    else if env.textOk then .ok (none, some text)
    else .error ()
  else
    if env.textOk then .ok (none, some text) else .error ()

/-- The administrator id resolved by `send_admin_error` (line 233):
`config.get("ADMIN_CHAT_ID") or config.get("admin_users", [None])[0]`.
With `ADMIN_CHAT_ID` falsy and `admin_users` present but empty, the `[0]`
subscript raises `IndexError`. -/
def adminFallbackId (cfg : Config) : Except Unit (Option String) :=
  if truthyOpt cfg.ADMIN_CHAT_ID then .ok cfg.ADMIN_CHAT_ID
  else
    match cfg.admin_users with
    | none => .ok none
    | some [] => .error ()
    | some (x :: _) => .ok (some x)

/-- `send_admin_error(bot, message)`: resolve the admin id (which can raise
`IndexError`); any failure of the actual send is swallowed by its inner
`try`. -/
def send_admin_error (cfg : Config) : Except Unit Unit :=
  match adminFallbackId cfg with
  | .ok _ => .ok ()
  | .error e => .error e

/-- `send_message(bot, chat_id, text, image_url)` (lines 197-229): run the
body; on any exception, return silently when the destination is an
administrator, otherwise escalate through `send_admin_error` (whose own
`IndexError` would escape to the caller). -/
def send_message (cfg : Config) (env : DeliveryEnv) (chat_id text : String)
    (image_url : PyVal) : Except Unit DeliveryTrace :=
  match sendBody env text image_url with
  | .ok (pc, tb) => .ok ⟨pc, tb, false⟩
  | .error _ =>
    if is_admin_id cfg chat_id then .ok ⟨none, none, false⟩
    else
      match send_admin_error cfg with
      | .ok _ => .ok ⟨none, none, true⟩
      | .error e => .error e

/-! ### Scheduled run (`process_sheet_data`, lines 624-693) -/

/-- The observable outcome of one scheduled run: the committed state and
taxonomy, the messages passed to the admin error notifier, and the record
partitions delivered to the broadcast channel. -/
structure RunResult where
  state : DetState
  taxonomy : Taxonomy
  adminMsgs : List String
  sentNew : List Record
  sentChanged : List Record
deriving DecidableEq

/-- `process_sheet_data(context)`: resolve the feed URL, fetch (the fetcher
is passed in as a function, `none` modelling `fetch_sheet_data`'s failure
sentinel), refresh the taxonomy, then either the no-channel branch (commit
state only) or the broadcast branch (classify, deliver, commit). -/
def process_sheet_data (cfg : Config) (fetch : String → Option (List Record))
    (st : DetState) (taxo : Taxonomy) : RunResult :=
  match pyOrOpt cfg.SHEET_CSV_URL cfg.sheet_url with
  | none => ⟨st, taxo, ["Error: URL de la hoja de cálculo no configurada."], [], []⟩
  | some url =>
    if url = "" then ⟨st, taxo, ["Error: URL de la hoja de cálculo no configurada."], [], []⟩
    else
      match fetch url with
      | none => ⟨st, taxo, ["No se pudo acceder al Google Sheet. Reintentando en 1 minuto."], [], []⟩
      | some data =>
        let taxo' := update_categories_and_objectives taxo data
        if !truthyOpt cfg.TELEGRAM_CHANNEL_ID then
          ⟨processNoChannel st data, taxo', [], [], []⟩
        else
          let r := processRecords st data
          ⟨r.1, taxo', [], r.2.1, r.2.2⟩

/-! ### Search command (`buscar_command`, lines 334-401) -/

/-- The field-name spellings scanned by the search loop, in source order. -/
def searchFields : List String :=
  ["Nombre", "nombre", "Marca", "marca", "Descripcion", "Descripción", "descripcion",
   "Categoria", "categoria", "Objetivo", "objetivo"]

/-- One field's contribution to the searchable text (lines 361-365): a
truthy value is appended lowercased, numeric values passing through
`str(int(v))` first — which raises `ValueError` on `nan` (there is no
`pd.isna` guard in this loop). -/
def searchFieldText (v : PyVal) : Except Unit String :=
  if truthy v then
    match v with
    | .vFloat q => .ok (pyLower (toString (pyTrunc q)) ++ " ")
    | .vInt n => .ok (pyLower (toString n) ++ " ")
    | .vNaN => .error ()
    | _ => .ok (pyLower (pyStr v) ++ " ")
  else .ok ""

/-- The `product_text` accumulated for one record (lines 357-365). -/
def buildSearchText (p : Record) : Except Unit String :=
  searchFields.foldlM (fun acc f => do
    let piece ← searchFieldText (rGet p f)
    pure (acc ++ piece)) ""

/-- The `found_products` loop of `buscar_command` (lines 354-368): keep the
records whose searchable text contains the term; an exception from any
record aborts the whole loop. -/
def buscarFindRecords (term : String) (data : List Record) : Except Unit (List Record) :=
  data.foldlM (fun found p => do
    let txt ← buildSearchText p
    pure (if strContainsSub txt term then found ++ [p] else found)) []

/-- Python `" ".join(args)`. -/
def spaceJoin : List String → String
  | [] => ""
  | [s] => s
  | s :: rest => s ++ " " ++ spaceJoin rest

/-- The user-visible outcome of `/buscar`. -/
inductive BuscarOut where
  | usage
  | noUrl
  | tryLater
  | crashed
  | noMatch
  | sent (found : List Record)
deriving DecidableEq

/-- `buscar_command(update, context)` (lines 334-401): usage hint on empty
arguments, then URL resolution (`sheet_url` first here), fetch, filter, and
the zero/nonzero-result replies. `crashed` marks the uncaught `ValueError`
escaping the handler. -/
def buscar_command (cfg : Config) (fetch : String → Option (List Record))
    (args : List String) : BuscarOut :=
  if args.isEmpty then .usage
  else
    let term := pyLower (spaceJoin args)
    match pyOrOpt cfg.sheet_url cfg.SHEET_CSV_URL with
    | none => .noUrl
    | some url =>
      if url = "" then .noUrl
      else
        match fetch url with
        | none => .tryLater
        | some data =>
          match buscarFindRecords term data with
          | .error _ => .crashed
          | .ok [] => .noMatch
          | .ok found => .sent found

/-! ### Helper lemmas -/

theorem length_le_toDigitsCore (b : Nat) :
    ∀ (fuel n : Nat) (ds : List Char), ds.length ≤ (Nat.toDigitsCore b fuel n ds).length := by
  intro fuel
  induction fuel with
  | zero => intro n ds; simp [Nat.toDigitsCore]
  | succ f ih =>
    intro n ds
    rw [Nat.toDigitsCore]
    split
    · simp
    · exact le_trans (by simp) (ih _ _)

theorem toDigitsCore_pos (b fuel n : Nat) (ds : List Char) :
    0 < (Nat.toDigitsCore b (fuel + 1) n ds).length := by
  rw [Nat.toDigitsCore]
  split
  · simp
  · exact lt_of_lt_of_le (by simp) (length_le_toDigitsCore b fuel _ _)

theorem natRepr_ne_empty (m : Nat) : Nat.repr m ≠ "" := by
  intro h
  have hd : (Nat.repr m).data = [] := by rw [h]
  have : 0 < (Nat.toDigits 10 m).length := toDigitsCore_pos 10 m m []
  rw [Nat.repr] at hd
  have h2 : (Nat.toDigits 10 m) = [] := hd
  rw [h2] at this
  exact Nat.lt_irrefl 0 this

theorem intToString_ne_empty (n : Int) : toString n ≠ "" := by
  show Int.repr n ≠ ""
  cases n with
  | ofNat m => exact natRepr_ne_empty m
  | negSucc m =>
    intro h
    have hd : (Int.repr (Int.negSucc m)).data = [] := by rw [h]
    rw [Int.repr] at hd
    have : ("-" ++ Nat.repr (m + 1)).data = '-' :: (Nat.repr (m + 1)).data := rfl
    rw [this] at hd
    exact List.noConfusion hd

theorem priceGet_priceSet_self (m : List (String × String)) (k v : String) :
    priceGet (priceSet m k v) k = some v := by
  induction m with
  | nil => simp [priceGet, priceSet]
  | cons hd t ih =>
    obtain ⟨k', v'⟩ := hd
    by_cases hk : k' = k
    · subst hk; simp [priceGet, priceSet]
    · simp [priceGet, priceSet, hk, ih]

theorem priceGet_priceSet_ne (m : List (String × String)) (k v k' : String) (h : k' ≠ k) :
    priceGet (priceSet m k v) k' = priceGet m k' := by
  induction m with
  | nil =>
    simp only [priceGet, priceSet]
    rw [if_neg (fun hh => h hh.symm)]
  | cons hd t ih =>
    obtain ⟨k0, v0⟩ := hd
    by_cases hk : k0 = k
    · subst hk
      simp only [priceSet, if_pos rfl, priceGet]
      rw [if_neg (fun hh => h hh.symm ), if_neg ?_]
      intro hh
      exact h hh.symm
    · simp only [priceSet, if_neg hk, priceGet]
      by_cases hk' : k0 = k'
      · simp [hk']
      · simp [hk', ih]

theorem mem_setAdd (l : List String) (x y : String) :
    x ∈ setAdd l y ↔ x ∈ l ∨ x = y := by
  by_cases h : y ∈ l
  · simp only [setAdd, if_pos h]
    constructor
    · exact Or.inl
    · rintro (hx | rfl)
      · exact hx
      · exact h
  · simp [setAdd, if_neg h]

theorem mem_insertNew (l : List String) (x y : String) :
    x ∈ insertNew l y ↔ x ∈ l ∨ x = y := by
  by_cases h : y ∈ l
  · simp only [insertNew, if_pos h]
    constructor
    · exact Or.inl
    · rintro (hx | rfl)
      · exact hx
      · exact h
  · simp [insertNew, if_neg h]

theorem detectStep_skip (acc : DetState × List Record × List Record) (p : Record)
    (h : recId p = "") : detectStep acc p = acc := by
  simp [detectStep, h]

theorem detectStep_new (st : DetState) (n d : List Record) (p : Record)
    (h : recId p ≠ "") (h2 : recId p ∉ st.ids) :
    detectStep (st, n, d) p =
      (⟨setAdd st.ids (recId p), priceSet st.lastPrices (recId p) (recPd p)⟩, n ++ [p], d) := by
  simp [detectStep, h, h2]

theorem detectStep_changed (st : DetState) (n d : List Record) (p : Record)
    (h : recId p ≠ "") (h2 : recId p ∈ st.ids)
    (h3 : recPd p ≠ "") (h4 : priceGet st.lastPrices (recId p) ≠ some (recPd p)) :
    detectStep (st, n, d) p =
      (⟨st.ids, priceSet st.lastPrices (recId p) (recPd p)⟩, n, d ++ [p]) := by
  simp [detectStep, h, h2, h3, h4]

theorem detectStep_stable (st : DetState) (n d : List Record) (p : Record)
    (h : recId p ≠ "") (h2 : recId p ∈ st.ids)
    (h5 : recPd p = "" ∨ priceGet st.lastPrices (recId p) = some (recPd p)) :
    detectStep (st, n, d) p = (st, n, d) := by
  have hnot : ¬(recPd p ≠ "" ∧ priceGet st.lastPrices (recId p) ≠ some (recPd p)) := by
    rcases h5 with h5 | h5
    · intro hc; exact hc.1 h5
    · intro hc; exact hc.2 h5
  simp [detectStep, h, h2, hnot]

/-- A step on a record whose identifier differs from `k` (or is empty)
leaves `k`'s membership and price entry alone. -/
theorem detectStep_preserve (acc : DetState × List Record × List Record) (p : Record)
    (k : String) (hk : recId p = "" ∨ recId p ≠ k) :
    ((k ∈ (detectStep acc p).1.ids ↔ k ∈ acc.1.ids) ∧
      priceGet (detectStep acc p).1.lastPrices k = priceGet acc.1.lastPrices k) := by
  obtain ⟨st, n, d⟩ := acc
  rcases hk with hk | hk
  · rw [detectStep_skip _ _ hk]
    exact ⟨Iff.rfl, rfl⟩
  · by_cases hid : recId p = ""
    · rw [detectStep_skip _ _ hid]
      exact ⟨Iff.rfl, rfl⟩
    · by_cases hmem : recId p ∈ st.ids
      · by_cases hch : recPd p ≠ "" ∧ priceGet st.lastPrices (recId p) ≠ some (recPd p)
        · rw [detectStep_changed st n d p hid hmem hch.1 hch.2]
          refine ⟨Iff.rfl, ?_⟩
          exact priceGet_priceSet_ne _ _ _ _ (fun hh => hk hh.symm)
        · have h5 : recPd p = "" ∨ priceGet st.lastPrices (recId p) = some (recPd p) := by
            by_cases hpd : recPd p = ""
            · exact Or.inl hpd
            · right
              by_contra hgg
              exact hch ⟨hpd, hgg⟩
          rw [detectStep_stable st n d p hid hmem h5]
          exact ⟨Iff.rfl, rfl⟩
      · rw [detectStep_new st n d p hid hmem]
        refine ⟨?_, priceGet_priceSet_ne _ _ _ _ (fun hh => hk hh.symm)⟩
        rw [mem_setAdd]
        constructor
        · rintro (hx | rfl)
          · exact hx
          · exact absurd rfl hk
        · exact Or.inl

/-- The invariant of the persisted state: every identifier with a price
entry is also in the seen-set. -/
def InvPS (st : DetState) : Prop :=
  ∀ k v, priceGet st.lastPrices k = some v → k ∈ st.ids

theorem InvPS_detectStep (acc : DetState × List Record × List Record) (p : Record)
    (h : InvPS acc.1) : InvPS (detectStep acc p).1 := by
  obtain ⟨st, n, d⟩ := acc
  by_cases hid : recId p = ""
  · rw [detectStep_skip _ _ hid]; exact h
  · by_cases hmem : recId p ∈ st.ids
    · by_cases hch : recPd p ≠ "" ∧ priceGet st.lastPrices (recId p) ≠ some (recPd p)
      · rw [detectStep_changed st n d p hid hmem hch.1 hch.2]
        intro k v hkv
        by_cases hk : k = recId p
        · subst hk; exact hmem
        · rw [priceGet_priceSet_ne _ _ _ _ hk] at hkv
          exact h k v hkv
      · have h5 : recPd p = "" ∨ priceGet st.lastPrices (recId p) = some (recPd p) := by
          by_cases hpd : recPd p = ""
          · exact Or.inl hpd
          · right
            by_contra hgg
            exact hch ⟨hpd, hgg⟩
        rw [detectStep_stable st n d p hid hmem h5]; exact h
    · rw [detectStep_new st n d p hid hmem]
      intro k v hkv
      rw [mem_setAdd]
      by_cases hk : k = recId p
      · exact Or.inr hk
      · rw [priceGet_priceSet_ne _ _ _ _ hk] at hkv
        exact Or.inl (h k v hkv)

/-- The two loops perform the same state mutation. -/
theorem noChannelStep_eq (st : DetState) (n d : List Record) (p : Record) :
    noChannelStep st p = (detectStep (st, n, d) p).1 := by
  by_cases hid : recId p = ""
  · rw [detectStep_skip _ _ hid]
    simp [noChannelStep, hid]
  · by_cases hmem : recId p ∈ st.ids
    · by_cases hch : recPd p ≠ "" ∧ priceGet st.lastPrices (recId p) ≠ some (recPd p)
      · rw [detectStep_changed st n d p hid hmem hch.1 hch.2]
        simp [noChannelStep, hid, hmem, hch.1, hch.2]
      · have h5 : recPd p = "" ∨ priceGet st.lastPrices (recId p) = some (recPd p) := by
          by_cases hpd : recPd p = ""
          · exact Or.inl hpd
          · right
            by_contra hgg
            exact hch ⟨hpd, hgg⟩
        rw [detectStep_stable st n d p hid hmem h5]
        simp [noChannelStep, hid, hmem, hch]
    · rw [detectStep_new st n d p hid hmem]
      simp [noChannelStep, hid, hmem]

theorem InvPS_foldl (snap : List Record) :
    ∀ (acc : DetState × List Record × List Record), InvPS acc.1 →
      InvPS (List.foldl detectStep acc snap).1 := by
  induction snap with
  | nil => intro acc h; exact h
  | cons p rest ih =>
    intro acc h
    exact ih (detectStep acc p) (InvPS_detectStep acc p h)

theorem InvPS_noChannel_foldl (snap : List Record) :
    ∀ (st : DetState), InvPS st → InvPS (List.foldl noChannelStep st snap) := by
  induction snap with
  | nil => intro st h; exact h
  | cons p rest ih =>
    intro st h
    rw [List.foldl_cons, noChannelStep_eq st [] [] p]
    exact ih _ (InvPS_detectStep (st, [], []) p h)

/-- After a run, state `st` is up to date for record `p`: its identifier is
seen and, when its price string is non-empty, the price map holds it. -/
def GoodAt (st : DetState) (p : Record) : Prop :=
  recId p ∈ st.ids ∧ (recPd p ≠ "" → priceGet st.lastPrices (recId p) = some (recPd p))

theorem detectStep_self_good (acc : DetState × List Record × List Record) (p : Record)
    (hid : recId p ≠ "") : GoodAt (detectStep acc p).1 p := by
  obtain ⟨st, n, d⟩ := acc
  by_cases hmem : recId p ∈ st.ids
  · by_cases hch : recPd p ≠ "" ∧ priceGet st.lastPrices (recId p) ≠ some (recPd p)
    · rw [detectStep_changed st n d p hid hmem hch.1 hch.2]
      exact ⟨hmem, fun _ => priceGet_priceSet_self _ _ _⟩
    · have h5 : recPd p = "" ∨ priceGet st.lastPrices (recId p) = some (recPd p) := by
        by_cases hpd : recPd p = ""
        · exact Or.inl hpd
        · right
          by_contra hgg
          exact hch ⟨hpd, hgg⟩
      rw [detectStep_stable st n d p hid hmem h5]
      refine ⟨hmem, fun hpd => ?_⟩
      rcases h5 with h5 | h5
      · exact absurd h5 hpd
      · exact h5
  · rw [detectStep_new st n d p hid hmem]
    refine ⟨?_, fun _ => priceGet_priceSet_self _ _ _⟩
    rw [mem_setAdd]
    exact Or.inr rfl

theorem foldl_detectStep_preserve (rest : List Record) :
    ∀ (acc : DetState × List Record × List Record) (k : String),
      (∀ r ∈ rest, recId r = "" ∨ recId r ≠ k) →
      ((k ∈ (List.foldl detectStep acc rest).1.ids ↔ k ∈ acc.1.ids) ∧
        priceGet (List.foldl detectStep acc rest).1.lastPrices k =
          priceGet acc.1.lastPrices k) := by
  induction rest with
  | nil => intro acc k _; exact ⟨Iff.rfl, rfl⟩
  | cons q t ih =>
    intro acc k hk
    have hq := hk q (List.mem_cons_self q t)
    have ht : ∀ r ∈ t, recId r = "" ∨ recId r ≠ k := fun r hr => hk r (List.mem_cons_of_mem q hr)
    have h1 := detectStep_preserve acc q k hq
    have h2 := ih (detectStep acc q) k ht
    rw [List.foldl_cons]
    exact ⟨h2.1.trans h1.1, h2.2.trans h1.2⟩

theorem run_good (snap : List Record) :
    ∀ (acc : DetState × List Record × List Record),
      List.Pairwise (fun a b => recId a = "" ∨ recId a ≠ recId b) snap →
      ∀ p ∈ snap, recId p ≠ "" → GoodAt (List.foldl detectStep acc snap).1 p := by
  induction snap with
  | nil => intro acc _ p hp; exact absurd hp (List.not_mem_nil p)
  | cons q t ih =>
    intro acc hpw p hp hpid
    have hpw1 : ∀ r ∈ t, recId q = "" ∨ recId q ≠ recId r := (List.pairwise_cons.mp hpw).1
    have hpw2 := (List.pairwise_cons.mp hpw).2
    rw [List.foldl_cons]
    rcases List.mem_cons.mp hp with rfl | hpt
    · have hgood := detectStep_self_good acc p hpid
      have hpres := foldl_detectStep_preserve t (detectStep acc p) (recId p)
        (fun r hr => by
          rcases hpw1 r hr with h | h
          · exact absurd h hpid
          · exact Or.inr (fun hh => h hh.symm))
      exact ⟨hpres.1.mpr hgood.1, fun hpd => hpres.2.trans (hgood.2 hpd)⟩
    · exact ih (detectStep acc q) hpw2 p hpt hpid

theorem fold_id_of_good (snap : List Record) :
    ∀ (st : DetState) (n d : List Record),
      (∀ p ∈ snap, recId p ≠ "" → GoodAt st p) →
      List.foldl detectStep (st, n, d) snap = (st, n, d) := by
  induction snap with
  | nil => intro st n d _; rfl
  | cons q t ih =>
    intro st n d hgood
    have hstep : detectStep (st, n, d) q = (st, n, d) := by
      by_cases hid : recId q = ""
      · exact detectStep_skip _ _ hid
      · have hg := hgood q (List.mem_cons_self q t) hid
        by_cases hpd : recPd q = ""
        · exact detectStep_stable st n d q hid hg.1 (Or.inl hpd)
        · exact detectStep_stable st n d q hid hg.1 (Or.inr (hg.2 hpd))
    rw [List.foldl_cons, hstep]
    exact ih st n d (fun p hp => hgood p (List.mem_cons_of_mem q hp))

/-! ### Claim theorems -/

/-- C1: Change-detector classification. For every prior state (seen-set,
price-map) and feed record, with `id` the trimmed string form of the
identifier field (via the code's dual-spelling, empty-defaulting lookup) and
`p`'s discounted-price display string likewise: an empty id skips the record
entirely; an unseen id is classified New, added to the seen-set, and its
price recorded; a seen id with a non-empty price differing from the stored
one is classified Discount-changed and the price updated; in every other
case nothing is classified and the state is unchanged. -/
theorem change_detector_classification (st : DetState) (n d : List Record) (p : Record) :
    (recId p = "" → detectStep (st, n, d) p = (st, n, d)) ∧
    (recId p ≠ "" → recId p ∉ st.ids →
      (detectStep (st, n, d) p).2.1 = n ++ [p] ∧
      (detectStep (st, n, d) p).2.2 = d ∧
      (∀ x, x ∈ (detectStep (st, n, d) p).1.ids ↔ x ∈ st.ids ∨ x = recId p) ∧
      priceGet (detectStep (st, n, d) p).1.lastPrices (recId p) = some (recPd p) ∧
      (∀ k, k ≠ recId p →
        priceGet (detectStep (st, n, d) p).1.lastPrices k = priceGet st.lastPrices k)) ∧
    (recId p ≠ "" → recId p ∈ st.ids → recPd p ≠ "" →
        priceGet st.lastPrices (recId p) ≠ some (recPd p) →
      (detectStep (st, n, d) p).2.1 = n ∧
      (detectStep (st, n, d) p).2.2 = d ++ [p] ∧
      (detectStep (st, n, d) p).1.ids = st.ids ∧
      priceGet (detectStep (st, n, d) p).1.lastPrices (recId p) = some (recPd p) ∧
      (∀ k, k ≠ recId p →
        priceGet (detectStep (st, n, d) p).1.lastPrices k = priceGet st.lastPrices k)) ∧
    (recId p ≠ "" → recId p ∈ st.ids →
      (recPd p = "" ∨ priceGet st.lastPrices (recId p) = some (recPd p)) →
      detectStep (st, n, d) p = (st, n, d)) := by
  refine ⟨fun h => detectStep_skip _ _ h, ?_, ?_, ?_⟩
  · intro h h2
    rw [detectStep_new st n d p h h2]
    refine ⟨rfl, rfl, ?_, priceGet_priceSet_self _ _ _, ?_⟩
    · intro x; exact mem_setAdd st.ids x (recId p)
    · intro k hk; exact priceGet_priceSet_ne _ _ _ _ hk
  · intro h h2 h3 h4
    rw [detectStep_changed st n d p h h2 h3 h4]
    exact ⟨rfl, rfl, rfl, priceGet_priceSet_self _ _ _,
      fun k hk => priceGet_priceSet_ne _ _ _ _ hk⟩
  · intro h h2 h5
    exact detectStep_stable st n d p h h2 h5

/-- Concrete input for the C1 witness: prior state knows item A at 9.99,
and record B arrives with discounted price 5.00. -/
def stW : DetState := ⟨["A"], [("A", "9.99")]⟩

/-- Fresh record with identifier B for the C1 witness. -/
def pB : Record := [("ID", .vStr "B"), ("Precio_descuento", .vStr "5.00")]

theorem change_detector_classification_witness :
    recId pB ≠ "" ∧ recId pB ∉ stW.ids ∧
    (detectStep (stW, [], []) pB).2.1 = [pB] ∧
    priceGet (detectStep (stW, [], []) pB).1.lastPrices (recId pB) = some (recPd pB) := by
  refine ⟨by decide, by decide, ?_, ?_⟩
  · exact ((change_detector_classification stW [] [] pB).2.1 (by decide) (by decide)).1
  · exact ((change_detector_classification stW [] [] pB).2.1 (by decide) (by decide)).2.2.2.1

/-- C4: State invariant. If every identifier in the price map is also in
the seen-identifiers set, then after a change-detector run over any feed
snapshot — on the broadcast branch as well as the no-channel branch — the
committed state again satisfies this. -/
theorem state_invariant_preserved (st : DetState) (snap : List Record) (h : InvPS st) :
    InvPS (processRecords st snap).1 ∧ InvPS (processNoChannel st snap) :=
  ⟨InvPS_foldl snap (st, [], []) h, InvPS_noChannel_foldl snap st h⟩

theorem state_invariant_preserved_witness :
    InvPS ⟨["A"], [("A", "9.99")]⟩ ∧
      InvPS (processRecords ⟨["A"], [("A", "9.99")]⟩ [pB]).1 := by
  have hinv : InvPS ⟨["A"], [("A", "9.99")]⟩ := by
    intro k v hkv
    simp only [priceGet] at hkv
    split at hkv
    · rename_i hh
      rw [← hh]
      exact List.mem_cons_self _ _
    · exact absurd hkv (by simp [priceGet])
  exact ⟨hinv, (state_invariant_preserved ⟨["A"], [("A", "9.99")]⟩ [pB] hinv).1⟩

/-- Snapshot with two records sharing identifier A at different prices,
refuting C5 as stated. -/
def snapDup : List Record :=
  [[("ID", .vStr "A"), ("Precio_descuento", .vStr "1")],
   [("ID", .vStr "A"), ("Precio_descuento", .vStr "2")]]

/-- C5 counterexample: on a snapshot holding the same identifier twice with
two different prices, a second run from the committed state classifies
records as Discount-changed again, so the claim's unconditional idempotence
fails. -/
theorem idempotence_counterexample :
    (processRecords (processRecords ⟨[], []⟩ snapDup).1 snapDup).2.2 ≠ [] := by
  decide

/-- C5 (amended): for every feed snapshot in which no two records share the
same non-empty identifier, re-running the detector on the same snapshot
from the committed state classifies nothing as New or Discount-changed and
leaves the committed state unchanged. -/
theorem idempotence_no_dup (st : DetState) (snap : List Record)
    (h : List.Pairwise (fun a b => recId a = "" ∨ recId a ≠ recId b) snap) :
    processRecords (processRecords st snap).1 snap = ((processRecords st snap).1, [], []) := by
  show List.foldl detectStep ((processRecords st snap).1, [], []) snap =
    ((processRecords st snap).1, [], [])
  apply fold_id_of_good
  intro p hp hpid
  exact run_good snap (⟨st, [], []⟩ : DetState × List Record × List Record) h p hp hpid

/-- Duplicate-free snapshot for the C5 witness. -/
def snapND : List Record :=
  [[("ID", .vStr "A"), ("Precio_descuento", .vStr "1")],
   [("ID", .vStr "B"), ("Precio_descuento", .vStr "2")]]

theorem idempotence_no_dup_witness :
    List.Pairwise (fun a b => recId a = "" ∨ recId a ≠ recId b) snapND ∧
    processRecords (processRecords ⟨[], []⟩ snapND).1 snapND =
      ((processRecords ⟨[], []⟩ snapND).1, [], []) :=
  ⟨by decide, idempotence_no_dup ⟨[], []⟩ snapND (by decide)⟩

/-- The number the discount filter actually compares:
`float(str(descuento).replace('%',''))` over the dual-spelling lookup. -/
def discountValue (p : Record) : Option FloatVal :=
  parsePyFloat (removePercent (pyStr (pyOr (rGet p "Descuento") (rGet p "descuento"))))

/-- Record whose discount field holds the string `5%0`, separating the
code's remove-every-percent-sign parse from the claim's strip-a-trailing-
percent-sign parse. -/
def rPct : Record := [("Descuento", .vStr "5%0")]

/-- C2 counterexample: on discount string `5%0`, whose value cannot be
parsed after stripping a trailing percent sign (so the claim puts it in no
bracket), the code removes the interior percent sign, reads 50, and keeps
the record in the `50+` bracket. -/
theorem discount_bracket_counterexample :
    handle_discount_filter "50+" (.val ⟨50, 1⟩) .inf rPct = true ∧
    specTrailingPercentValue (pyStr (rGet rPct "Descuento")) = none := by
  decide

/-- C6 counterexample: the non-integral numeric 5.5 is normalized by
`str(int(cat))` to the truncation `"5"`, not to its natural string form
`"5.5"` as the claim states. -/
theorem normalize_counterexample :
    normalizeRaw (.vFloat ⟨55, 10⟩) = some "5" ∧
    pyStr (.vFloat ⟨55, 10⟩) = "5.5" ∧
    normalizeRaw (.vFloat ⟨55, 10⟩) ≠ some (pyStr (.vFloat ⟨55, 10⟩)) := by
  decide

/-- C2 (amended): the filter parses the discount field as a number after
removing every percent sign (not only a trailing one); for each bounded
bracket it keeps the record iff `lo <= value < hi`, the `50+` bracket keeps
the record iff `value >= 50`, and a record whose discount does not parse
matches no bracket and causes no error. In particular `"50%"` is in `50+`
and not `30-50`, and `"30"` is in `30-50` and not `20-30`. -/
theorem discount_bracket_predicate :
    (∀ (p : Record) (key : String) (lo hi : FloatVal),
      (key, lo, hi) ∈ DISCOUNT_RANGES → key ≠ "50+" →
      (handle_discount_filter key lo hi p = true ↔
        ∃ v, discountValue p = some v ∧ fle lo v = true ∧ flt v hi = true)) ∧
    (∀ p : Record,
      handle_discount_filter "50+" (.val ⟨50, 1⟩) .inf p = true ↔
        ∃ v, discountValue p = some v ∧ fle (.val ⟨50, 1⟩) v = true) ∧
    handle_discount_filter "50+" (.val ⟨50, 1⟩) .inf [("Descuento", .vStr "50%")] = true ∧
    handle_discount_filter "30-50" (.val ⟨30, 1⟩) (.val ⟨50, 1⟩)
      [("Descuento", .vStr "50%")] = false ∧
    handle_discount_filter "30-50" (.val ⟨30, 1⟩) (.val ⟨50, 1⟩)
      [("Descuento", .vStr "30")] = true ∧
    handle_discount_filter "20-30" (.val ⟨20, 1⟩) (.val ⟨30, 1⟩)
      [("Descuento", .vStr "30")] = false ∧
    (∀ (key : String) (lo hi : FloatVal), (key, lo, hi) ∈ DISCOUNT_RANGES →
      handle_discount_filter key lo hi [("Descuento", .vStr "N/A")] = false) := by
  refine ⟨?_, ?_, by decide, by decide, by decide, by decide, ?_⟩
  · intro p key lo hi _ hkey
    cases hv : discountValue p with
    | none =>
      unfold discountValue at hv
      simp [handle_discount_filter, hv]
    | some v =>
      unfold discountValue at hv
      have hk : decide (key = "50+") = false := decide_eq_false hkey
      simp [handle_discount_filter, hv, hk]
  · intro p
    cases hv : discountValue p with
    | none =>
      unfold discountValue at hv
      simp [handle_discount_filter, hv]
    | some v =>
      unfold discountValue at hv
      cases v with
      | val q => simp [handle_discount_filter, hv, fle, flt]
      | inf => simp [handle_discount_filter, hv, fle, flt]
      | ninf => simp [handle_discount_filter, hv, fle, flt]
      | nan => simp [handle_discount_filter, hv, fle, flt]
  · intro key lo hi hmem
    fin_cases hmem <;> decide

/-- Record with discount `"30"` for the C2 witness. -/
def rD30 : Record := [("Descuento", .vStr "30")]

theorem discount_bracket_predicate_witness :
    ("30-50", FloatVal.val ⟨30, 1⟩, FloatVal.val ⟨50, 1⟩) ∈ DISCOUNT_RANGES ∧
    handle_discount_filter "30-50" (.val ⟨30, 1⟩) (.val ⟨50, 1⟩) rD30 = true := by
  refine ⟨by decide, ?_⟩
  exact (discount_bracket_predicate.1 rD30 "30-50" (.val ⟨30, 1⟩) (.val ⟨50, 1⟩)
    (by decide) (by decide)).mpr ⟨.val ⟨30, 1⟩, by decide, by decide, by decide⟩

/-- C10: a record whose discount is falsy under the primary spelling (for
example the number 0 or the empty string), with the alternate spelling
absent/`None` or the empty string, falls through the `or`-lookup to an
unparseable value (`float("None")` or `float("")` raises), so the record is
excluded from every bracket, including `0-10` whose lower bound is 0. -/
theorem discount_falsy_zero_excluded (p : Record) (key : String) (lo hi : FloatVal)
    (hmem : (key, lo, hi) ∈ DISCOUNT_RANGES)
    (hfalsy : truthy (rGet p "Descuento") = false)
    (halt : rGet p "descuento" = .vNone ∨ rGet p "descuento" = .vStr "") :
    handle_discount_filter key lo hi p = false := by
  clear hmem
  have hd : pyOr (rGet p "Descuento") (rGet p "descuento") = rGet p "descuento" := by
    simp [pyOr, hfalsy]
  rcases halt with h | h
  · have hp : parsePyFloat (removePercent (pyStr PyVal.vNone)) = none := by decide
    simp [handle_discount_filter, hd.trans h, hp]
  · have hp : parsePyFloat (removePercent (pyStr (PyVal.vStr ""))) = none := by decide
    simp [handle_discount_filter, hd.trans h, hp]

/-- Record whose primary discount spelling holds the integer 0 and whose
alternate spelling is absent, for the C10 witness. -/
def rD0 : Record := [("Descuento", .vInt 0)]

theorem discount_falsy_zero_excluded_witness :
    truthy (rGet rD0 "Descuento") = false ∧
    handle_discount_filter "0-10" (.val ⟨0, 1⟩) (.val ⟨10, 1⟩) rD0 = false :=
  ⟨by decide, discount_falsy_zero_excluded rD0 "0-10" (.val ⟨0, 1⟩) (.val ⟨10, 1⟩)
    (by decide) (by decide) (Or.inl (by decide))⟩

/-- C6 (amended): normalization maps `None`/missing/NaN to Absent; a
numeric value is truncated toward zero and rendered without a decimal point
(`normalize(5.0) = "5"`, but also `normalize(5.5) = "5"` rather than the
natural string form); strings are trimmed, empty-after-trim becoming
Absent; and the inline normalization used by the category/objective
selection filters agrees with the taxonomy one on every value. -/
theorem normalize_characterization :
    normalizeRaw .vNone = none ∧
    normalizeRaw .vNaN = none ∧
    (∀ q : PRat, normalizeRaw (.vFloat q) = some (toString (pyTrunc q))) ∧
    (∀ n : Int, normalizeRaw (.vInt n) = some (toString n)) ∧
    (∀ s : String, normalizeRaw (.vStr s) =
      if pyStrip s = "" then none else some (pyStrip s)) ∧
    (∀ v : PyVal, normalizeSelection v = normalizeRaw v) ∧
    normalizeRaw (.vFloat ⟨5, 1⟩) = some "5" ∧
    normalizeRaw (.vStr " Foo ") = some "Foo" := by
  have hstr : ∀ s : String, normalizeRaw (.vStr s) =
      if pyStrip s = "" then none else some (pyStrip s) := by
    intro s
    by_cases hs : pyStrip s = ""
    · simp [normalizeRaw, pdIsna, hs]
    · simp [normalizeRaw, pdIsna, hs]
  have hflo : ∀ q : PRat, normalizeRaw (.vFloat q) = some (toString (pyTrunc q)) := by
    intro q
    simp [normalizeRaw, pdIsna, intToString_ne_empty (pyTrunc q)]
  have hint : ∀ n : Int, normalizeRaw (.vInt n) = some (toString n) := by
    intro n
    simp [normalizeRaw, pdIsna, intToString_ne_empty n]
  refine ⟨rfl, rfl, hflo, hint, hstr, ?_, by decide, by decide⟩
  intro v
  cases v with
  | vStr s =>
    rw [hstr s]
    by_cases hs : pyStrip s = ""
    · simp [normalizeSelection, pdIsna, hs]
    · simp [normalizeSelection, pdIsna, hs]
  | vInt n => rw [hint n]; simp [normalizeSelection, pdIsna]
  | vFloat q => rw [hflo q]; simp [normalizeSelection, pdIsna]
  | vNaN => rfl
  | vNone => rfl

/-- Membership in the prior set survives the collection fold. -/
theorem mem_collectField (g : Record → Option String) (init : List String)
    (snap : List Record) (x : String) (hx : x ∈ init) :
    x ∈ collectField g init snap := by
  unfold collectField
  have base : x ∈ init.dedup := List.mem_dedup.mpr hx
  revert base
  generalize init.dedup = acc
  revert acc
  induction snap with
  | nil => intro acc h; exact h
  | cons p t ih =>
    intro acc h
    rw [List.foldl_cons]
    apply ih
    cases hg : g p with
    | none => simpa [hg] using h
    | some c =>
      simp only [hg]
      exact (mem_insertNew acc x c).mpr (Or.inl h)

/-- C9: Taxonomy cache monotonicity and sortedness: a refresh returns (and
persists) category and objective sets containing every previously stored
entry, and both sets are sorted after the refresh; hence repeated refreshes
with overlapping values never shrink either set. -/
theorem taxonomy_monotone_sorted (prior : Taxonomy) (snap : List Record) :
    (∀ x, x ∈ prior.categorias → x ∈ (update_categories_and_objectives prior snap).categorias) ∧
    (∀ x, x ∈ prior.objetivos → x ∈ (update_categories_and_objectives prior snap).objetivos) ∧
    List.Sorted (· ≤ ·) (update_categories_and_objectives prior snap).categorias ∧
    List.Sorted (· ≤ ·) (update_categories_and_objectives prior snap).objetivos := by
  refine ⟨?_, ?_, ?_, ?_⟩
  · intro x hx
    show x ∈ sortStrings (collectField normCatKey prior.categorias snap)
    rw [sortStrings, List.mem_mergeSort]
    exact mem_collectField normCatKey prior.categorias snap x hx
  · intro x hx
    show x ∈ sortStrings (collectField normObjKey prior.objetivos snap)
    rw [sortStrings, List.mem_mergeSort]
    exact mem_collectField normObjKey prior.objetivos snap x hx
  · exact List.sorted_mergeSort' _
  · exact List.sorted_mergeSort' _

theorem taxonomy_monotone_sorted_witness :
    "zinc" ∈ (Taxonomy.mk ["zinc", "aminos"] []).categorias ∧
    "zinc" ∈ (update_categories_and_objectives ⟨["zinc", "aminos"], []⟩ []).categorias :=
  ⟨by decide, (taxonomy_monotone_sorted ⟨["zinc", "aminos"], []⟩ []).1 "zinc" (by decide)⟩

/-- Configuration with no `ADMIN_CHAT_ID` and an `admin_users` key holding
an empty list: the admin-notifier id lookup
`config.get("ADMIN_CHAT_ID") or config.get("admin_users", [None])[0]`
raises `IndexError` under it. -/
def cfgNoAdmin : Config := ⟨none, none, none, none, some [], none⟩

/-- C3 counterexample: under `cfgNoAdmin`, a total delivery failure to a
non-administrator escalates into `send_admin_error`, whose `[0]` subscript
on the empty `admin_users` list raises `IndexError` out of `send_message` —
so "deliver never raises to its caller" fails as universally stated. -/
theorem delivery_counterexample :
    send_message cfgNoAdmin ⟨false, false⟩ "user1" "hola" .vNone = .error () := rfl

/-- C3 (amended): provided the admin-notifier id lookup cannot raise
(`ADMIN_CHAT_ID` truthy, or `admin_users` absent or non-empty), delivery
never raises: a usable image with a working photo transport is sent as a
photo with the caption; any photo failure falls back to text-only delivery
of the same rich text; and the admin notifier is invoked exactly when total
delivery fails and the destination is not a configured administrator. -/
theorem delivery_behaviour (cfg : Config) (env : DeliveryEnv) (chat_id text : String)
    (image_url : PyVal)
    (hsafe : truthyOpt cfg.ADMIN_CHAT_ID = true ∨ cfg.admin_users ≠ some []) :
    send_message cfg env chat_id text image_url =
      .ok ⟨if usableImage (rewriteDrive image_url) && env.photoOk then some text else none,
           if !(usableImage (rewriteDrive image_url) && env.photoOk) && env.textOk
             then some text else none,
           !(usableImage (rewriteDrive image_url) && env.photoOk) && !env.textOk &&
             !is_admin_id cfg chat_id⟩ := by
  have hadmin : send_admin_error cfg = .ok () := by
    unfold send_admin_error adminFallbackId
    by_cases htr : truthyOpt cfg.ADMIN_CHAT_ID = true
    · simp [htr]
    · rcases hsafe with h | h
      · exact absurd h htr
      · rw [if_neg htr]
        cases hcu : cfg.admin_users with
        | none => rfl
        | some l =>
          cases l with
          | nil => exact absurd hcu h
          | cons x t => rfl
  unfold send_message sendBody
  cases hu : usableImage (rewriteDrive image_url) <;>
    cases hp : env.photoOk <;>
      cases ht : env.textOk <;>
        cases hia : is_admin_id cfg chat_id <;>
          simp [hu, hp, ht, hia, hadmin]

/-- Configuration with an administrator configured, for the C3 witness. -/
def cfgAdmin : Config := ⟨none, none, none, some "admin", none, none⟩

theorem delivery_behaviour_witness :
    (truthyOpt cfgAdmin.ADMIN_CHAT_ID = true ∨ cfgAdmin.admin_users ≠ some []) ∧
    send_message cfgAdmin ⟨false, true⟩ "user1" "hola" (.vStr "https://x/img.png") =
      .ok ⟨none, some "hola", false⟩ := by
  refine ⟨Or.inl (by decide), ?_⟩
  have h := delivery_behaviour cfgAdmin ⟨false, true⟩ "user1" "hola"
    (.vStr "https://x/img.png") (Or.inl (by decide))
  exact h.trans rfl

/-- Record with a NaN name cell — how pandas renders an empty CSV cell. -/
def rNaN : Record := [("Nombre", .vNaN)]

/-- Record whose name matches the search term `prote`. -/
def rProt : Record := [("Nombre", .vStr "Proteina X")]

/-- Configuration holding only a feed URL, for the C7 and C8 theorems. -/
def cfgFetch : Config := ⟨some "http://sheet", none, none, none, none, none⟩

/-- C7 (code bug): the substring filter is not total. A NaN field value is
truthy, reaches `str(int(field_value))`, and `int(nan)` raises an unguarded
`ValueError` (lines 363-364 have no `pd.isna` check and no `try`), so one
malformed record aborts the whole query run — the matching record `rProt`
is lost too, and `/buscar` crashes instead of replying. -/
theorem search_nan_aborts_run :
    buildSearchText rNaN = .error () ∧
    buscarFindRecords "prote" [rProt, rNaN] = .error () ∧
    buscarFindRecords "prote" [rProt] = .ok [rProt] ∧
    buscar_command cfgFetch (fun _ => some [rProt, rNaN]) ["prote"] = .crashed := by
  exact ⟨rfl, rfl, rfl, rfl⟩

/-- C8: Fetch-failure atomicity: when the fetch yields the Absent sentinel,
the scheduled run returns the seen-set, price map and taxonomy unchanged,
broadcasts nothing, and passes exactly the retry notice to the admin error
notifier; the `/buscar` query path replies "try later" and touches no
state. -/
theorem fetch_failure_atomic :
    (∀ (cfg : Config) (fetch : String → Option (List Record)) (st : DetState)
        (taxo : Taxonomy) (u : String),
      pyOrOpt cfg.SHEET_CSV_URL cfg.sheet_url = some u → u ≠ "" → fetch u = none →
      process_sheet_data cfg fetch st taxo =
        ⟨st, taxo, ["No se pudo acceder al Google Sheet. Reintentando en 1 minuto."], [], []⟩) ∧
    (∀ (cfg : Config) (fetch : String → Option (List Record)) (args : List String) (u : String),
      args.isEmpty = false →
      pyOrOpt cfg.sheet_url cfg.SHEET_CSV_URL = some u → u ≠ "" → fetch u = none →
      buscar_command cfg fetch args = .tryLater) := by
  constructor
  · intro cfg fetch st taxo u hu hne hf
    simp [process_sheet_data, hu, hne, hf]
  · intro cfg fetch args u hargs hu hne hf
    simp [buscar_command, hargs, hu, hne, hf]

theorem fetch_failure_atomic_witness :
    ((fun _ => (none : Option (List Record))) "http://sheet" = none) ∧
    process_sheet_data cfgFetch (fun _ => none) ⟨["A"], [("A", "1")]⟩ ⟨["c"], ["o"]⟩ =
      ⟨⟨["A"], [("A", "1")]⟩, ⟨["c"], ["o"]⟩,
        ["No se pudo acceder al Google Sheet. Reintentando en 1 minuto."], [], []⟩ ∧
    buscar_command cfgFetch (fun _ => none) ["x"] = .tryLater :=
  ⟨rfl,
   fetch_failure_atomic.1 cfgFetch (fun _ => none) ⟨["A"], [("A", "1")]⟩ ⟨["c"], ["o"]⟩
     "http://sheet" (by decide) (by decide) rfl,
   fetch_failure_atomic.2 cfgFetch (fun _ => none) ["x"] "http://sheet"
     (by decide) (by decide) (by decide) rfl⟩
